import Mathlib

/-!
Shallow embedding of `src/KN_smoothing.py` (class `KneserNeySmoothing`):
an interpolated Kneser-Ney smoothing engine over a whitespace-tokenized
corpus.

Modelling conventions:
* Python tuples of tokens are `List String`.
* Python `float` arithmetic is modelled over `ℚ` (exact arithmetic of the
  same formulas; the claims under scrutiny are stated as exact values of
  the formulas).
* `collections.Counter` lookups never insert keys, so each counter is
  modelled as a total function returning 0 on absent keys.  The one
  mutable container is the `defaultdict` `self.ngramCounts`, whose key
  set can grow on lookup; that effect is modelled separately (see
  `probabilidadCondicionalMut` below) for the frame-condition claim.
* Python exceptions (`ZeroDivisionError` from `/`, `IndexError` from
  `ngram[-1]` on an empty tuple) are modelled with `Except PyErr`.
-/

/-- Python runtime errors that the query paths of `KN_smoothing.py` can raise. -/
inductive PyErr where
  | indexError : PyErr
  | zeroDivisionError : PyErr
deriving DecidableEq

instance : DecidableEq (Except PyErr ℚ)
  | .error e, .error f =>
      decidable_of_iff (e = f) ⟨fun h => by rw [h], fun h => by injection h⟩
  | .error _, .ok _ => isFalse (fun h => by injection h)
  | .ok _, .error _ => isFalse (fun h => by injection h)
  | .ok q, .ok r =>
      decidable_of_iff (q = r) ⟨fun h => by rw [h], fun h => by injection h⟩

/-- Accumulator-based splitting of a character list at spaces, discarding
empty fragments. -/
def tokenizeAux : List Char → List Char → List String
  | [], acc => if acc.isEmpty then [] else [String.mk acc.reverse]
  | c :: cs, acc =>
      if c = ' ' then
        if acc.isEmpty then tokenizeAux cs []
        else String.mk acc.reverse :: tokenizeAux cs []
      else tokenizeAux cs (c :: acc)

/-- Tokenization used throughout `KN_smoothing.py`: `oracion.split()`,
splitting on whitespace (the corpora at hand use only the space character)
and discarding empty fragments. -/
def tokenize (oracion : String) : List String :=
  tokenizeAux oracion.data []

/-- All contiguous windows of length `n` over a token list:
`zip(*[tokens[i:] for i in range(n)])`.  For `n = 0` the Python `zip()`
yields nothing; for `n ≥ 1` it yields `tokens[i : i+n]` for
`i = 0 .. len(tokens) − n`. -/
def ventanas (n : Nat) (tokens : List String) : List (List String) :=
  if n = 0 then []
  else (List.range (tokens.length + 1 - n)).map (fun i => (tokens.drop i).take n)

/-- Concatenation of every token of every sentence of the corpus (windows
for unigram counting; `_calcularFrecuencias` updates `unigramCounts` with
each sentence's tokens). -/
def allTokens (corpus : List String) : List String :=
  corpus.flatMap tokenize

/-- Concatenation of the length-`n` windows of every sentence of the corpus
(the n-grams counted by `_calcularFrecuencias`; windows never cross
sentence boundaries). -/
def allVentanas (n : Nat) (corpus : List String) : List (List String) :=
  corpus.flatMap (fun oracion => ventanas n (tokenize oracion))

/-- State of a `KneserNeySmoothing` object after `__init__` finishes:
the configuration plus the count tables. -/
structure KneserNeySmoothing where
  n : Nat
  descuento : ℚ
  unigramCounts : String → Nat
  ngramCounts : Nat → List String → Nat
  cuentasContinuacion : List String → Nat
  cuentasContexto : List String → Nat
  totalNgrams : Nat
  totalUnigrams : Nat

/-- Construction (`__init__`, which runs `_calcularFrecuencias`,
`_calcularCuentasContinuacion` and `_calcularCuentasContexto`):

* `unigramCounts[w]`   = occurrences of token `w` in the whole corpus;
* `totalUnigrams`      = total token count;
* `ngramCounts[k][g]`  = occurrences of window `g` among the length-`n`
  windows when `k = n` (every increment happens at key `len(ngram) = n`),
  0 at any other order;
* `totalNgrams`        = total number of length-`n` windows;
* `cuentasContinuacion[suf]` = number of distinct length-`n` windows `g`
  with `g[1:] = suf` (one increment per distinct key of `ngramCounts[n]`);
* `cuentasContexto[pre]`     = number of distinct length-`n` windows `g`
  with `g[:-1] = pre`.

The source performs no validation and raises nothing: every corpus, order
and discount produce a state. -/
def mkKneserNeySmoothing (corpus : List String) (n : Nat) (descuento : ℚ) :
    KneserNeySmoothing :=
  let toks := allTokens corpus
  let wins := allVentanas n corpus
  let claves := wins.dedup
  { n := n
    descuento := descuento
    unigramCounts := fun w => toks.count w
    ngramCounts := fun k g => if k = n then wins.count g else 0
    cuentasContinuacion := fun suf =>
      (claves.filter (fun g => g.drop 1 = suf)).length
    cuentasContexto := fun pre =>
      (claves.filter (fun g => g.dropLast = pre)).length
    totalNgrams := wins.length
    totalUnigrams := toks.length }

/-- Query `_probabilidadCondicional(ngram)`:

* empty tuple: `len(ngram) == 1` fails and `ngram[-1]` raises `IndexError`;
* singleton `(w,)`: `unigramCounts[w] / totalUnigrams` (`ZeroDivisionError`
  when `totalUnigrams == 0`);
* length ≥ 2: with `pre = ngram[:-1]`, `word = ngram[-1]`,
  `prefixCount = cuentasContexto[pre]`:
  - if `prefixCount == 0`: `_probabilidadContinuacion(word)`, i.e.
    `cuentasContinuacion[(word,)] / totalNgrams` (`ZeroDivisionError` when
    `totalNgrams == 0`);
  - else `max(ngramCount − D, 0)/prefixCount + D·lower/prefixCount`, with
    `ngramCount = ngramCounts[len(ngram)][ngram]` and `lower` the
    recursive call on `ngram[1:]`. -/
def probabilidadCondicional (s : KneserNeySmoothing) :
    List String → Except PyErr ℚ
  | [] => .error .indexError
  | [w] =>
      if s.totalUnigrams = 0 then .error .zeroDivisionError
      else .ok ((s.unigramCounts w : ℚ) / (s.totalUnigrams : ℚ))
  | w :: x :: rest =>
      let ngram := w :: x :: rest
      let pre := ngram.dropLast
      let word := ngram.getLastD ("")
      let prefixCount := s.cuentasContexto pre
      if prefixCount = 0 then
        if s.totalNgrams = 0 then .error .zeroDivisionError
        else .ok ((s.cuentasContinuacion [word] : ℚ) / (s.totalNgrams : ℚ))
      else
        let ngramCount := s.ngramCounts ngram.length ngram
        match probabilidadCondicional s (x :: rest) with
        | .error e => .error e
        | .ok lowerOrderProb =>
            .ok (max ((ngramCount : ℚ) - s.descuento) 0 / (prefixCount : ℚ)
              + s.descuento * lowerOrderProb / (prefixCount : ℚ))

/-- Query `obtenerProbabilidad(ngram)`: delegates to
`_probabilidadCondicional`. -/
def obtenerProbabilidad (s : KneserNeySmoothing) (ngram : List String) :
    Except PyErr ℚ :=
  probabilidadCondicional s ngram

/-- Value of an `Except`-wrapped probability (0 on the error branch; only
used where every branch is proven to be `ok`). -/
def okVal : Except PyErr ℚ → ℚ
  | .ok q => q
  | .error _ => 0

/-- Loop body of `generarProbabilidadOracion`:
`prob *= self.obtenerProbabilidad(ngram)`, with a raised exception
aborting the loop (an error accumulator passes through unchanged). -/
def pasoOracion (s : KneserNeySmoothing) (acc : Except PyErr ℚ)
    (g : List String) : Except PyErr ℚ :=
  match acc with
  | .error e => .error e
  | .ok p =>
      match obtenerProbabilidad s g with
      | .error e => .error e
      | .ok q => .ok (p * q)

/-- Query `generarProbabilidadOracion(oracion)`: tokenize, form the
length-`n` windows, and accumulate `prob *= obtenerProbabilidad(ngram)`
starting from `1.0`. -/
def generarProbabilidadOracion (s : KneserNeySmoothing) (oracion : String) :
    Except PyErr ℚ :=
  (ventanas s.n (tokenize oracion)).foldl (pasoOracion s) (.ok 1)

/-- Demo corpus from the bottom of `KN_smoothing.py`. -/
def demoCorpus : List String :=
  ["el gato come pescado", "el perro come carne", "el gato duerme",
   "el perro ladra", "el perro come pescado"]

/-- Demo engine: `KneserNeySmoothing(corpus, n=2, descuento=0.75)`. -/
def demoModel : KneserNeySmoothing :=
  mkKneserNeySmoothing demoCorpus 2 (3 / 4)

/-- Step-counting variant of `_probabilidadCondicional`: one unit of fuel
is consumed per call (so the top-level call plus the chain of recursive
calls on `ngram[1:]`), and `none` is returned when fuel runs out.  Used to
state that the recursion terminates within the depth the spec promises. -/
def probCondFuel (s : KneserNeySmoothing) :
    Nat → List String → Option (Except PyErr ℚ)
  | 0, _ => none
  | _ + 1, [] => some (.error .indexError)
  | _ + 1, [w] =>
      some (if s.totalUnigrams = 0 then .error .zeroDivisionError
        else .ok ((s.unigramCounts w : ℚ) / (s.totalUnigrams : ℚ)))
  | fuel + 1, w :: x :: rest =>
      let ngram := w :: x :: rest
      let pre := ngram.dropLast
      let word := ngram.getLastD ("")
      let prefixCount := s.cuentasContexto pre
      if prefixCount = 0 then
        some (if s.totalNgrams = 0 then .error .zeroDivisionError
          else .ok ((s.cuentasContinuacion [word] : ℚ) / (s.totalNgrams : ℚ)))
      else
        let ngramCount := s.ngramCounts ngram.length ngram
        match probCondFuel s fuel (x :: rest) with
        | none => none
        | some (.error e) => some (.error e)
        | some (.ok lowerOrderProb) =>
            some (.ok (max ((ngramCount : ℚ) - s.descuento) 0 / (prefixCount : ℚ)
              + s.descuento * lowerOrderProb / (prefixCount : ℚ)))

/-- Key insertion as performed by a Python `defaultdict` on lookup of a
missing key (`self.ngramCounts[len(ngram)]` creates an empty `Counter`
when `len(ngram)` is absent; an existing key leaves the dict unchanged). -/
def insertClave (ks : List Nat) (k : Nat) : List Nat :=
  if k ∈ ks then ks else ks ++ [k]

/-- Variant of `_probabilidadCondicional` that additionally tracks the key
set of the `defaultdict` `self.ngramCounts`, the only container whose
shape a query can mutate: `Counter` lookups (`unigramCounts`,
`cuentasContexto`, `cuentasContinuacion`, and the inner
`ngramCounts[k][ngram]` lookup) return 0 on missing keys without
inserting, but the outer `self.ngramCounts[len(ngram)]` lookup in the
recursive branch inserts the key `len(ngram)` when absent.  The counts
themselves are never written after `__init__`. -/
def probCondMut (s : KneserNeySmoothing) :
    List String → List Nat → Except PyErr ℚ × List Nat
  | [], ks => (.error .indexError, ks)
  | [w], ks =>
      (if s.totalUnigrams = 0 then .error .zeroDivisionError
       else .ok ((s.unigramCounts w : ℚ) / (s.totalUnigrams : ℚ)), ks)
  | w :: x :: rest, ks =>
      let ngram := w :: x :: rest
      let pre := ngram.dropLast
      let word := ngram.getLastD ("")
      let prefixCount := s.cuentasContexto pre
      if prefixCount = 0 then
        (if s.totalNgrams = 0 then .error .zeroDivisionError
         else .ok ((s.cuentasContinuacion [word] : ℚ) / (s.totalNgrams : ℚ)), ks)
      else
        let ks1 := insertClave ks ngram.length
        let ngramCount := s.ngramCounts ngram.length ngram
        match probCondMut s (x :: rest) ks1 with
        | (.error e, ks2) => (.error e, ks2)
        | (.ok lowerOrderProb, ks2) =>
            (.ok (max ((ngramCount : ℚ) - s.descuento) 0 / (prefixCount : ℚ)
              + s.descuento * lowerOrderProb / (prefixCount : ℚ)), ks2)

/-- Loop body of `generarProbabilidadOracion` in the key-set-tracking
model. -/
def pasoOracionMut (s : KneserNeySmoothing)
    (acc : Except PyErr ℚ × List Nat) (g : List String) :
    Except PyErr ℚ × List Nat :=
  match acc with
  | (.error e, ks) => (.error e, ks)
  | (.ok p, ks) =>
      match probCondMut s g ks with
      | (.error e, ks1) => (.error e, ks1)
      | (.ok q, ks1) => (.ok (p * q), ks1)

/-- Sentence query in the key-set-tracking model. -/
def generarOracionMut (s : KneserNeySmoothing) (oracion : String)
    (ks : List Nat) : Except PyErr ℚ × List Nat :=
  (ventanas s.n (tokenize oracion)).foldl (pasoOracionMut s) (.ok 1, ks)

/-- One post-construction query: either `obtenerProbabilidad` on a tuple
or `generarProbabilidadOracion` on a sentence. -/
inductive Consulta where
  | prob : List String → Consulta
  | oracion : String → Consulta

/-- Run a sequence of queries against a fixed engine, threading the
`defaultdict` key set (the only mutable shape) through every query. -/
def runConsultas (s : KneserNeySmoothing) :
    List Consulta → List Nat → List Nat
  | [], ks => ks
  | q :: qs, ks =>
      match q with
      | .prob g => runConsultas s qs (probCondMut s g ks).2
      | .oracion o => runConsultas s qs (generarOracionMut s o ks).2

/-- Engine over a corpus whose single bigram repeats three times; used to
exhibit a probability above 1. -/
def repModel : KneserNeySmoothing :=
  mkKneserNeySmoothing ["a b", "a b", "a b"] 2 (3 / 4)

/-! Helper lemmas: the three branches of `_probabilidadCondicional` as
equations, well-definedness and nonnegativity of the result, window
shapes, and preservation of the `defaultdict` key set. -/

/-- Base case of `_probabilidadCondicional` on a trained engine. -/
theorem probCond_unigram (s : KneserNeySmoothing) (w : String)
    (hU : s.totalUnigrams ≠ 0) :
    probabilidadCondicional s [w] =
      .ok ((s.unigramCounts w : ℚ) / (s.totalUnigrams : ℚ)) := by
  simp [probabilidadCondicional, hU]

/-- Recursive branch of `_probabilidadCondicional` when the context count
of the prefix is positive and the recursive call returns a value. -/
theorem probCond_recursivo (s : KneserNeySmoothing) (w x : String)
    (rest : List String) (L : ℚ)
    (hpre : s.cuentasContexto ((w :: x :: rest).dropLast) ≠ 0)
    (hL : probabilidadCondicional s (x :: rest) = .ok L) :
    probabilidadCondicional s (w :: x :: rest) =
      .ok (max ((s.ngramCounts (w :: x :: rest).length (w :: x :: rest) : ℚ)
            - s.descuento) 0 / (s.cuentasContexto ((w :: x :: rest).dropLast) : ℚ)
          + s.descuento * L / (s.cuentasContexto ((w :: x :: rest).dropLast) : ℚ)) := by
  have h1 : (w :: x :: rest).dropLast = w :: (x :: rest).dropLast := rfl
  rw [h1] at hpre
  simp [probabilidadCondicional, hpre, hL]

/-- On a trained engine (nonzero token and n-gram totals) every non-empty
query returns a value. -/
theorem probCond_isOk (s : KneserNeySmoothing) (hU : s.totalUnigrams ≠ 0)
    (hN : s.totalNgrams ≠ 0) :
    ∀ g : List String, g ≠ [] → ∃ q, probabilidadCondicional s g = .ok q := by
  intro g
  induction g with
  | nil => intro h; exact absurd rfl h
  | cons w t ih =>
    intro _
    cases t with
    | nil =>
        exact ⟨(s.unigramCounts w : ℚ) / (s.totalUnigrams : ℚ),
          by simp [probabilidadCondicional, hU]⟩
    | cons x rest =>
        by_cases hpre : s.cuentasContexto (w :: (x :: rest).dropLast) = 0
        · exact ⟨(s.cuentasContinuacion [(x :: rest).getLastD ("")] : ℚ) /
            (s.totalNgrams : ℚ), by simp [probabilidadCondicional, hpre, hN]⟩
        · obtain ⟨L, hL⟩ := ih (by simp)
          exact ⟨max ((s.ngramCounts (w :: x :: rest).length (w :: x :: rest) : ℚ)
              - s.descuento) 0 / (s.cuentasContexto (w :: (x :: rest).dropLast) : ℚ)
            + s.descuento * L / (s.cuentasContexto (w :: (x :: rest).dropLast) : ℚ),
            by simp [probabilidadCondicional, hpre, hL]⟩

/-- Every value `_probabilidadCondicional` returns is nonnegative, for any
nonnegative discount: counts are naturals, the discounted term is clamped
at 0, and the interpolation weight is nonnegative. -/
theorem probCond_nonneg (s : KneserNeySmoothing) (hD : 0 ≤ s.descuento) :
    ∀ (g : List String) (q : ℚ), probabilidadCondicional s g = .ok q → 0 ≤ q := by
  intro g
  induction g with
  | nil => intro q h; simp [probabilidadCondicional] at h
  | cons w t ih =>
    cases t with
    | nil =>
        intro q h
        by_cases hU : s.totalUnigrams = 0
        · simp [probabilidadCondicional, hU] at h
        · simp [probabilidadCondicional, hU] at h
          rw [← h]
          positivity
    | cons x rest =>
        intro q h
        by_cases hpre : s.cuentasContexto (w :: (x :: rest).dropLast) = 0
        · by_cases hN : s.totalNgrams = 0
          · simp [probabilidadCondicional, hpre, hN] at h
          · simp [probabilidadCondicional, hpre, hN] at h
            rw [← h]
            positivity
        · cases hrec : probabilidadCondicional s (x :: rest) with
          | error e => simp [probabilidadCondicional, hpre, hrec] at h
          | ok L =>
              simp [probabilidadCondicional, hpre, hrec] at h
              rw [← h]
              have hL := ih L hrec
              have h0 : (0:ℚ) ≤ (s.cuentasContexto (w :: (x :: rest).dropLast) : ℚ) :=
                Nat.cast_nonneg _
              exact add_nonneg
                (div_nonneg (le_max_right _ 0) h0)
                (div_nonneg (mul_nonneg hD hL) h0)

/-- A window produced by `ventanas n` has length exactly `n`, and windows
exist only for `n ≥ 1`. -/
theorem mem_ventanas_length {n : Nat} {tokens : List String} {g : List String}
    (hg : g ∈ ventanas n tokens) : g.length = n ∧ n ≠ 0 := by
  unfold ventanas at hg
  by_cases h0 : n = 0
  · simp [h0] at hg
  · rw [if_neg h0] at hg
    obtain ⟨i, hi, rfl⟩ := List.mem_map.1 hg
    have hi2 := List.mem_range.1 hi
    refine ⟨?_, h0⟩
    simp [List.length_take, List.length_drop]
    omega

/-- A token list shorter than `n` produces no windows (and `n = 0`
produces none either). -/
theorem ventanas_nil_of_short {n : Nat} {tokens : List String}
    (h : tokens.length < n) : ventanas n tokens = [] := by
  unfold ventanas
  by_cases h0 : n = 0
  · simp [h0]
  · rw [if_neg h0]
    have hz : tokens.length + 1 - n = 0 := by omega
    simp [hz]

/-- The sentence-probability fold computes the product of the per-window
values whenever every window's probability returns a value. -/
theorem foldl_paso_ok (s : KneserNeySmoothing) :
    ∀ ws : List (List String),
      (∀ g ∈ ws, ∃ q, probabilidadCondicional s g = .ok q) →
      ∀ a : ℚ, ws.foldl (pasoOracion s) (.ok a) =
        .ok (a * (ws.map (fun g => okVal (probabilidadCondicional s g))).prod) := by
  intro ws
  induction ws with
  | nil => intro _ a; simp
  | cons g ws ih =>
      intro h a
      obtain ⟨q, hq⟩ := h g (by simp)
      have hstep : pasoOracion s (.ok a) g = .ok (a * q) := by
        simp [pasoOracion, obtenerProbabilidad, hq]
      have hval : okVal (probabilidadCondicional s g) = q := by
        rw [hq]; rfl
      calc (g :: ws).foldl (pasoOracion s) (.ok a)
          = ws.foldl (pasoOracion s) (.ok (a * q)) := by rw [List.foldl_cons, hstep]
        _ = .ok ((a * q) * (ws.map (fun g => okVal (probabilidadCondicional s g))).prod) :=
            ih (fun g hg => h g (by simp [hg])) (a * q)
        _ = .ok (a * ((g :: ws).map (fun g => okVal (probabilidadCondicional s g))).prod) := by
            rw [List.map_cons, List.prod_cons, hval, mul_assoc]

/-- A prefix with a positive context count has length `n − 1`: context
counts are keyed by the drop-last of the distinct length-`n` windows. -/
theorem cuentasContexto_len (corpus : List String) (n : Nat) (D : ℚ)
    (pre : List String)
    (h : (mkKneserNeySmoothing corpus n D).cuentasContexto pre ≠ 0) :
    pre.length + 1 = n := by
  unfold mkKneserNeySmoothing at h
  simp only at h
  have h1 : ((allVentanas n corpus).dedup.filter (fun g => g.dropLast = pre)) ≠ [] := by
    intro he
    rw [he] at h
    exact h rfl
  obtain ⟨g, hg⟩ := List.exists_mem_of_ne_nil _ h1
  obtain ⟨hmem, hp⟩ := List.mem_filter.1 hg
  have hp2 : g.dropLast = pre := by simpa using hp
  have hmem2 : g ∈ allVentanas n corpus := List.mem_dedup.1 hmem
  obtain ⟨o, _, hgv⟩ := List.mem_flatMap.1 hmem2
  obtain ⟨hglen, hn0⟩ := mem_ventanas_length hgv
  have hlp : pre.length = g.length - 1 := by rw [← hp2, List.length_dropLast]
  have hgpos : g ≠ [] := by
    intro he
    rw [he] at hglen
    exact hn0 hglen.symm
  have : 0 < g.length := List.length_pos.2 hgpos
  omega

/-- A probability query leaves the `defaultdict` key set `[n]` unchanged:
the one inserting lookup, `self.ngramCounts[len(ngram)]`, is reached only
when the prefix has a positive context count, which forces
`len(ngram) = n`, a key already present since construction. -/
theorem probCondMut_fija (corpus : List String) (n : Nat) (D : ℚ) :
    ∀ g : List String,
      (probCondMut (mkKneserNeySmoothing corpus n D) g [n]).2 = [n] := by
  intro g
  induction g with
  | nil => rfl
  | cons w t ih =>
    cases t with
    | nil => rfl
    | cons x rest =>
        by_cases hpre : (mkKneserNeySmoothing corpus n D).cuentasContexto
            (w :: (x :: rest).dropLast) = 0
        · simp [probCondMut, hpre]
        · have hlen : (w :: x :: rest).length = n := by
            have hl := cuentasContexto_len corpus n D (w :: (x :: rest).dropLast) hpre
            simp at hl ⊢
            omega
          have hins : insertClave [n] n = [n] := by simp [insertClave]
          cases hrec : probCondMut (mkKneserNeySmoothing corpus n D) (x :: rest) [n] with
          | mk r ks2 =>
              have ih2 := ih
              rw [hrec] at ih2
              simp only at ih2
              cases r with
              | error e => simp [probCondMut, hpre, hlen, hins, hrec, ih2]
              | ok L => simp [probCondMut, hpre, hlen, hins, hrec, ih2]

/-- The sentence-probability loop preserves the key set `[n]`: every
per-window query does. -/
theorem foldl_pasoMut_fija (corpus : List String) (n : Nat) (D : ℚ) :
    ∀ (ws : List (List String)) (acc : Except PyErr ℚ × List Nat),
      acc.2 = [n] →
      (ws.foldl (pasoOracionMut (mkKneserNeySmoothing corpus n D)) acc).2 = [n] := by
  intro ws
  induction ws with
  | nil => intro acc h; exact h
  | cons g ws ih =>
      intro acc h
      apply ih
      obtain ⟨r, ks⟩ := acc
      simp only at h
      subst h
      cases r with
      | error e => rfl
      | ok p =>
          cases hrec : probCondMut (mkKneserNeySmoothing corpus n D) g [n] with
          | mk r2 ks2 =>
              have hf := probCondMut_fija corpus n D g
              rw [hrec] at hf
              simp only at hf
              subst hf
              cases r2 with
              | error e => simp [pasoOracionMut, hrec]
              | ok q => simp [pasoOracionMut, hrec]

/-- A whole-sentence query preserves the key set `[n]`. -/
theorem generarOracionMut_fija (corpus : List String) (n : Nat) (D : ℚ)
    (oracion : String) :
    (generarOracionMut (mkKneserNeySmoothing corpus n D) oracion [n]).2 = [n] :=
  foldl_pasoMut_fija corpus n D _ _ rfl

/-! Claim theorems. -/

/-- Claim C1, counterexample: on the corpus `["a b", "a b", "a b"]` with
order 2 and discount 0.75 — a configuration and corpus the spec itself
accepts (order ≥ 1, discount in (0,1), three bigrams) — the query
`("a", "b")` returns 21/8, which is greater than 1.  The bigram occurs 3
times while only 1 distinct bigram starts with `"a"`, so the discounted
term alone is `max(3 − 0.75, 0)/1 = 2.25`.  The claim that `probability`
always lies in `[0, 1]` is therefore false. -/
theorem c1_probabilidad_excede_uno :
    probabilidadCondicional repModel ["a", "b"] = .ok (21 / 8) ∧
    ¬((21 : ℚ) / 8 ≤ 1) := by
  constructor
  · have hg := probCond_unigram repModel ("b") (by decide)
    have h2 := probCond_recursivo repModel ("a") ("b") [] _ (by decide) hg
    rw [h2, show repModel.ngramCounts (["a", "b"]).length ["a", "b"] = 3 from by decide,
        show repModel.cuentasContexto (["a", "b"].dropLast) = 1 from by decide,
        show repModel.unigramCounts ("b") = 3 from by decide,
        show repModel.totalUnigrams = 6 from by decide,
        show repModel.descuento = 3 / 4 from rfl]
    norm_num [max_def]
  · norm_num

/-- Claim C1 (amended): after a construction that yields at least one
token and one n-gram, and with a nonnegative discount, `probability`
returns a nonnegative value for every non-empty tuple; the upper bound 1
claimed by the spec does not hold in general. -/
theorem c1_probabilidad_no_negativa (s : KneserNeySmoothing)
    (hU : s.totalUnigrams ≠ 0) (hN : s.totalNgrams ≠ 0)
    (hD : 0 ≤ s.descuento) (g : List String) (hg : g ≠ []) :
    ∃ q, probabilidadCondicional s g = .ok q ∧ 0 ≤ q := by
  obtain ⟨q, hq⟩ := probCond_isOk s hU hN g hg
  exact ⟨q, hq, probCond_nonneg s hD g q hq⟩

/-- Claim C1 (amended), witness at the demo engine and the query
`("el", "gato")`. -/
theorem c1_probabilidad_no_negativa_witness :
    demoModel.totalUnigrams ≠ 0 ∧ demoModel.totalNgrams ≠ 0 ∧
    0 ≤ demoModel.descuento ∧ (["el", "gato"] : List String) ≠ [] ∧
    ∃ q, probabilidadCondicional demoModel ["el", "gato"] = .ok q ∧ 0 ≤ q :=
  ⟨by decide, by decide,
   by rw [show demoModel.descuento = 3 / 4 from rfl]; norm_num,
   by decide,
   c1_probabilidad_no_negativa demoModel (by decide) (by decide)
     (by rw [show demoModel.descuento = 3 / 4 from rfl]; norm_num)
     ["el", "gato"] (by decide)⟩

/-- Claim C2, counterexample: constructing with order `n = 0 < 1` (an
invalid configuration per the claim) raises nothing and produces a usable
engine — its unigram query `("gato",)` answers `1/2`.  No
`InvalidConfiguration` or `EmptyCorpus` error exists anywhere in
`KN_smoothing.py`: `__init__` performs no validation at all. -/
theorem c2_motor_usable_sin_validacion :
    probabilidadCondicional (mkKneserNeySmoothing ["el gato"] 0 (3 / 4)) ["gato"]
      = .ok (1 / 2) := by
  have hg := probCond_unigram (mkKneserNeySmoothing ["el gato"] 0 (3 / 4))
    ("gato") (by decide)
  rw [hg,
      show (mkKneserNeySmoothing ["el gato"] 0 (3 / 4)).unigramCounts ("gato") = 1
        from by decide,
      show (mkKneserNeySmoothing ["el gato"] 0 (3 / 4)).totalUnigrams = 2
        from by decide]
  norm_num

/-- Claim C2 (amended): construction never raises — it is a total
function of corpus, order and discount.  For an empty corpus the
division-by-zero failure the spec predicted at construction instead
surfaces as a `ZeroDivisionError` at the first probability query (for any
order and discount), and an engine built with the invalid order 0 still
answers unigram queries. -/
theorem c2_construccion_sin_validacion (n : Nat) (D : ℚ) (w : String) :
    probabilidadCondicional (mkKneserNeySmoothing [] n D) [w]
        = .error .zeroDivisionError ∧
    probabilidadCondicional (mkKneserNeySmoothing ["el gato"] 0 D) ["el"]
        = .ok (((mkKneserNeySmoothing ["el gato"] 0 D).unigramCounts ("el") : ℚ) /
          ((mkKneserNeySmoothing ["el gato"] 0 D).totalUnigrams : ℚ)) := by
  constructor
  · have h : (mkKneserNeySmoothing [] n D).totalUnigrams = 0 := rfl
    simp [probabilidadCondicional, h]
  · exact probCond_unigram _ ("el")
      (by rw [show (mkKneserNeySmoothing ["el gato"] 0 D).totalUnigrams = 2 from rfl]
          decide)

/-- Claim C3: for a queried tuple of length `k > 1` whose prefix has a
positive context count, the probability is exactly
`max(ngramCount − D, 0) / prefixCount + D · lowerOrderProb / prefixCount`
with `ngramCount = NgramCounts[k][ngram]`, `prefixCount` the context count
of the drop-last prefix, `D` the configured discount, and `lowerOrderProb`
the recursive probability of the tuple with its first token dropped. -/
theorem c3_formula_interpolacion (s : KneserNeySmoothing) (w x : String)
    (rest : List String) (L : ℚ)
    (hpre : s.cuentasContexto ((w :: x :: rest).dropLast) ≠ 0)
    (hL : probabilidadCondicional s (x :: rest) = .ok L) :
    probabilidadCondicional s (w :: x :: rest) =
      .ok (max ((s.ngramCounts (w :: x :: rest).length (w :: x :: rest) : ℚ)
            - s.descuento) 0 / (s.cuentasContexto ((w :: x :: rest).dropLast) : ℚ)
          + s.descuento * L / (s.cuentasContexto ((w :: x :: rest).dropLast) : ℚ)) :=
  probCond_recursivo s w x rest L hpre hL

/-- Claim C3, witness at the demo engine and the query `("el", "gato")`,
whose recursive sub-query is the unigram `("gato",)`. -/
theorem c3_formula_interpolacion_witness :
    demoModel.cuentasContexto ((["el", "gato"]).dropLast) ≠ 0 ∧
    probabilidadCondicional demoModel ["gato"] =
      .ok ((demoModel.unigramCounts ("gato") : ℚ) / (demoModel.totalUnigrams : ℚ)) ∧
    probabilidadCondicional demoModel ["el", "gato"] =
      .ok (max ((demoModel.ngramCounts (["el", "gato"]).length ["el", "gato"] : ℚ)
            - demoModel.descuento) 0 /
              (demoModel.cuentasContexto ((["el", "gato"]).dropLast) : ℚ)
          + demoModel.descuento *
              ((demoModel.unigramCounts ("gato") : ℚ) / (demoModel.totalUnigrams : ℚ)) /
              (demoModel.cuentasContexto ((["el", "gato"]).dropLast) : ℚ)) :=
  ⟨by decide, probCond_unigram demoModel ("gato") (by decide),
   c3_formula_interpolacion demoModel ("el") ("gato") [] _ (by decide)
     (probCond_unigram demoModel ("gato") (by decide))⟩

/-- Claim C4: the count tables are built once at construction and no
sequence of `obtenerProbabilidad` / `generarProbabilidadOracion` queries
changes them.  The counters are never written after `__init__` (Python
`Counter` lookups return 0 on missing keys without inserting); the only
container whose shape a query lookup can alter is the `defaultdict`
`self.ngramCounts`, whose key set after construction is `[n]`, and which
every query sequence — over tuples of any length, including lengths other
than the configured order — leaves at `[n]`. -/
theorem c4_tablas_inmutables (corpus : List String) (n : Nat) (D : ℚ)
    (qs : List Consulta) :
    runConsultas (mkKneserNeySmoothing corpus n D) qs [n] = [n] := by
  induction qs with
  | nil => rfl
  | cons q qs ih =>
      cases q with
      | prob g =>
          show runConsultas _ qs (probCondMut _ g [n]).2 = [n]
          rw [probCondMut_fija corpus n D g]
          exact ih
      | oracion o =>
          show runConsultas _ qs (generarOracionMut _ o [n]).2 = [n]
          rw [generarOracionMut_fija corpus n D o]
          exact ih

/-- Claim C5: for a queried tuple of length ≥ 2 whose prefix has context
count 0, the probability is exactly the continuation probability of the
tuple's last word, `ContinuationCounts[(word,)] / totalNgrams`, with no
discounting and no further recursion. -/
theorem c5_retorno_continuacion (s : KneserNeySmoothing) (w x : String)
    (rest : List String)
    (hpre : s.cuentasContexto ((w :: x :: rest).dropLast) = 0)
    (hN : s.totalNgrams ≠ 0) :
    probabilidadCondicional s (w :: x :: rest) =
      .ok ((s.cuentasContinuacion [(w :: x :: rest).getLastD ("")] : ℚ) /
        (s.totalNgrams : ℚ)) := by
  have h1 : (w :: x :: rest).dropLast = w :: (x :: rest).dropLast := rfl
  rw [h1] at hpre
  simp [probabilidadCondicional, hpre, hN]

/-- Claim C5, witness at the demo engine and the length-3 query
`("x", "el", "gato")`, whose length-2 prefix is not a key of the
context-count table. -/
theorem c5_retorno_continuacion_witness :
    demoModel.cuentasContexto ((["x", "el", "gato"]).dropLast) = 0 ∧
    demoModel.totalNgrams ≠ 0 ∧
    probabilidadCondicional demoModel ["x", "el", "gato"] =
      .ok ((demoModel.cuentasContinuacion [(["x", "el", "gato"]).getLastD ("")] : ℚ) /
        (demoModel.totalNgrams : ℚ)) :=
  ⟨by decide, by decide,
   c5_retorno_continuacion demoModel ("x") ("el") ["gato"] (by decide) (by decide)⟩

/-- Claim C6: on an engine with at least one training token, a
single-token query `(w,)` returns `UnigramCounts[w] / totalUnigrams`; an
unseen token has count 0 and the query returns 0 rather than raising. -/
theorem c6_caso_base_unigrama (s : KneserNeySmoothing) (w : String)
    (hU : s.totalUnigrams ≠ 0) :
    probabilidadCondicional s [w] =
      .ok ((s.unigramCounts w : ℚ) / (s.totalUnigrams : ℚ)) ∧
    (s.unigramCounts w = 0 → probabilidadCondicional s [w] = .ok 0) := by
  refine ⟨probCond_unigram s w hU, fun h0 => ?_⟩
  rw [probCond_unigram s w hU, h0]
  norm_num

/-- Claim C6, witness at the demo engine and the unseen token
`"zorro"`. -/
theorem c6_caso_base_unigrama_witness :
    demoModel.totalUnigrams ≠ 0 ∧ demoModel.unigramCounts ("zorro") = 0 ∧
    probabilidadCondicional demoModel ["zorro"] =
      .ok ((demoModel.unigramCounts ("zorro") : ℚ) / (demoModel.totalUnigrams : ℚ)) ∧
    probabilidadCondicional demoModel ["zorro"] = .ok 0 :=
  ⟨by decide, by decide,
   (c6_caso_base_unigrama demoModel ("zorro") (by decide)).1,
   (c6_caso_base_unigrama demoModel ("zorro") (by decide)).2 (by decide)⟩

/-- Claim C7: on a trained engine, `generarProbabilidadOracion` equals
the product — seeded at 1 — of `probability` over all contiguous
length-`n` windows of the sentence's whitespace tokens; a sentence with
fewer than `n` tokens forms no windows and yields exactly 1. -/
theorem c7_producto_ventanas (s : KneserNeySmoothing) (oracion : String)
    (hU : s.totalUnigrams ≠ 0) (hN : s.totalNgrams ≠ 0) :
    generarProbabilidadOracion s oracion =
      .ok (((ventanas s.n (tokenize oracion)).map
        (fun g => okVal (probabilidadCondicional s g))).prod) ∧
    ((tokenize oracion).length < s.n →
      generarProbabilidadOracion s oracion = .ok 1) := by
  constructor
  · have hok : ∀ g ∈ ventanas s.n (tokenize oracion),
        ∃ q, probabilidadCondicional s g = .ok q := by
      intro g hg
      obtain ⟨hlen, hn0⟩ := mem_ventanas_length hg
      refine probCond_isOk s hU hN g ?_
      intro he
      rw [he] at hlen
      exact hn0 hlen.symm
    have h := foldl_paso_ok s _ hok 1
    rw [one_mul] at h
    exact h
  · intro hlt
    simp [generarProbabilidadOracion, ventanas_nil_of_short hlt]

/-- Claim C7, witness at the demo engine and the demo sentence
`"el perro come carne"`. -/
theorem c7_producto_ventanas_witness :
    demoModel.totalUnigrams ≠ 0 ∧ demoModel.totalNgrams ≠ 0 ∧
    (generarProbabilidadOracion demoModel "el perro come carne" =
      .ok (((ventanas demoModel.n (tokenize "el perro come carne")).map
        (fun g => okVal (probabilidadCondicional demoModel g))).prod) ∧
    ((tokenize "el perro come carne").length < demoModel.n →
      generarProbabilidadOracion demoModel "el perro come carne" = .ok 1)) :=
  ⟨by decide, by decide,
   c7_producto_ventanas demoModel ("el perro come carne") (by decide) (by decide)⟩

/-- Claim C8: the recursion of `_probabilidadCondicional` always descends
on the tuple with its first token dropped, so a query of length `k ≥ 1`
reaches the length-1 base case within `k − 1` recursive steps: the
step-counting variant already agrees with the recursive function when
given exactly `k` units of fuel (one per call). -/
theorem c8_terminacion (s : KneserNeySmoothing) :
    ∀ (g : List String) (fuel : Nat), g ≠ [] → g.length ≤ fuel →
      probCondFuel s fuel g = some (probabilidadCondicional s g) := by
  intro g
  induction g with
  | nil => intro fuel h _; exact absurd rfl h
  | cons w t ih =>
    intro fuel _ hlen
    cases fuel with
    | zero => simp at hlen
    | succ f =>
        cases t with
        | nil => rfl
        | cons x rest =>
            have hlen2 : (x :: rest).length ≤ f := by
              simp at hlen ⊢
              omega
            have ih2 := ih f (by simp) hlen2
            by_cases hpre : s.cuentasContexto (w :: (x :: rest).dropLast) = 0
            · simp [probCondFuel, probabilidadCondicional, hpre]
            · cases hrec : probabilidadCondicional s (x :: rest) with
              | error e =>
                  rw [hrec] at ih2
                  simp [probCondFuel, probabilidadCondicional, hpre, ih2, hrec]
              | ok L =>
                  rw [hrec] at ih2
                  simp [probCondFuel, probabilidadCondicional, hpre, ih2, hrec]

/-- Claim C8, witness: the length-2 demo query terminates within fuel 2. -/
theorem c8_terminacion_witness :
    (["el", "gato"] : List String) ≠ [] ∧
    (["el", "gato"] : List String).length ≤ 2 ∧
    probCondFuel demoModel 2 ["el", "gato"] =
      some (probabilidadCondicional demoModel ["el", "gato"]) :=
  ⟨by decide, by decide,
   c8_terminacion demoModel ["el", "gato"] 2 (by decide) (by decide)⟩

/-- Claim C9: on the demo engine (order 2, discount 0.75, five-sentence
corpus), the query `("el", "gato")` evaluates to exactly 2/3: the bigram
count is 2, the context `("el",)` has 2 distinct continuations, the
unigram `("gato",)` has probability 2/18, and
`max(2 − 0.75, 0)/2 + 0.75 · (2/18)/2 = 2/3`. -/
theorem c9_demo_el_gato :
    probabilidadCondicional demoModel ["el", "gato"] = .ok (2 / 3) := by
  have hg := probCond_unigram demoModel ("gato") (by decide)
  have h2 := probCond_recursivo demoModel ("el") ("gato") [] _ (by decide) hg
  rw [h2, show demoModel.ngramCounts (["el", "gato"]).length ["el", "gato"] = 2
        from by decide,
      show demoModel.cuentasContexto (["el", "gato"].dropLast) = 2 from by decide,
      show demoModel.unigramCounts ("gato") = 2 from by decide,
      show demoModel.totalUnigrams = 18 from by decide,
      show demoModel.descuento = 3 / 4 from rfl]
  norm_num [max_def]

/-- Claim C10: `_probabilidadCondicional` is defined only for non-empty
tuples: the empty tuple skips the length-1 base case and `ngram[-1]`
raises `IndexError`, while on a trained engine every non-empty tuple
returns a value. -/
theorem c10_tupla_vacia_indexError (s : KneserNeySmoothing) (g : List String) :
    probabilidadCondicional s [] = .error .indexError ∧
    (g ≠ [] → s.totalUnigrams ≠ 0 → s.totalNgrams ≠ 0 →
      ∃ q, probabilidadCondicional s g = .ok q) :=
  ⟨rfl, fun hg hU hN => probCond_isOk s hU hN g hg⟩

/-- Claim C10, witness at the demo engine and the query `("el",)`. -/
theorem c10_tupla_vacia_indexError_witness :
    probabilidadCondicional demoModel [] = .error .indexError ∧
    ((["el"] : List String) ≠ [] ∧ demoModel.totalUnigrams ≠ 0 ∧
      demoModel.totalNgrams ≠ 0) ∧
    ∃ q, probabilidadCondicional demoModel ["el"] = .ok q :=
  ⟨(c10_tupla_vacia_indexError demoModel ["el"]).1,
   ⟨by decide, by decide, by decide⟩,
   (c10_tupla_vacia_indexError demoModel ["el"]).2 (by decide) (by decide) (by decide)⟩
